import Mathlib

/-!
Verification of the Pony template-language parser (recursive descent over a
token-tree stream, in the style of Rust `syn`).  The definitions below are a
shallow embedding of `src/syntax/formatting.rs`, `src/syntax/jsx.rs`,
`src/syntax/mustache.rs` and `src/syntax/svelte/**`.  Parsers are modelled in
state-passing style: a parser takes the list of remaining token trees and
returns a `Res` carrying the parsed value together with the unconsumed rest.
The host tokenizer (proc_macro2) and the expression/pattern collaborator
(`syn::Expr` / `syn::Pat`) are external to the repository and are modelled
from the spec where noted.
-/

namespace Pony

/-- Token trees as delivered by the host tokenizer (proc_macro2): single
punctuation characters, identifiers, literals, and delimited groups (a brace
group such as `\x7b ... \x7d` is one token tree whose contents are nested).
Literal texts are carried as character lists. -/
inductive Tok where
  | lt | gt | slash | bang | minus | colon | pound | question
  | plus | star | dollar | dot | caret | eq | pipe | comma | semi
  | ident (s : String)
  | litInt (digits : List Char)
  | litFloat (intPart fracPart suffix : List Char)
  | litStr (s : String)
  | litChar (c : Char)
  | braceGroup (inner : List Tok)
  | parenGroup (inner : List Tok)
  | bracketGroup (inner : List Tok)

/-- Outcome of running a parser on a token list.  `ok` carries the value and
the unconsumed rest; `err` is a typed `syn::Result` error (a message); `abort`
models a Rust panic (`unimplemented!` / `unwrap` failure), which is not a
typed error returned to the caller; `diverge` is the outcome reserved for
fuel exhaustion of the fueled loops: a loop whose run equals `diverge` at
every fuel never terminates (nor fails) on that input. -/
inductive Res (α : Type) where
  | ok (a : α) (rest : List Tok)
  | err (msg : String)
  | abort (msg : String)
  | diverge

/-- Sequencing of parser outcomes: errors, aborts and divergence propagate
(the `?` operator of the Rust source; panics unwind). -/
def andThen (r : Res α) (f : α → List Tok → Res β) : Res β :=
  match r with
  | .ok a rest => f a rest
  | .err e => .err e
  | .abort m => .abort m
  | .diverge => .diverge

/-- Mapping over a successful outcome. -/
def Res.map (f : α → β) : Res α → Res β
  | .ok a rest => .ok (f a) rest
  | .err e => .err e
  | .abort m => .abort m
  | .diverge => .diverge

/-- Strict Rust keywords: `syn::Ident` (and hence `input.peek(syn::Ident)`
and `input.parse::<syn::Ident>()`) rejects these. -/
def rustKeywords : List String :=
  ["as", "break", "const", "continue", "crate", "dyn", "else", "enum",
   "false", "fn", "for", "if", "impl", "in", "let", "loop", "match", "mod",
   "move", "mut", "pub", "ref", "return", "self", "Self", "static", "struct",
   "super", "trait", "true", "type", "union", "use", "where", "while",
   "async", "await"]

/-- Does a predicate hold of the first upcoming token (`input.peek`)? -/
def headIs (p : Tok → Bool) : List Tok → Bool
  | t :: _ => p t
  | [] => false

/-- Does a predicate hold of the second upcoming token (`input.peek2`)? -/
def peek2Is (p : Tok → Bool) : List Tok → Bool
  | _ :: t :: _ => p t
  | _ => false

/-- Does a predicate hold of the third upcoming token (`input.peek3`)? -/
def peek3Is (p : Tok → Bool) : List Tok → Bool
  | _ :: _ :: t :: _ => p t
  | _ => false

/-- Peek for a keyword token such as `Token![if]`: the next token is the
identifier spelling that keyword. -/
def isKw (k : String) : Tok → Bool
  | .ident s => s == k
  | _ => false

/-- Peek for `syn::Ident`: an identifier that is not a strict Rust keyword. -/
def acceptIdent : Tok → Bool
  | .ident s => !(rustKeywords.contains s)
  | _ => false

def isLt : Tok → Bool | .lt => true | _ => false
def isGt : Tok → Bool | .gt => true | _ => false
def isSlash : Tok → Bool | .slash => true | _ => false
def isBang : Tok → Bool | .bang => true | _ => false
def isMinus : Tok → Bool | .minus => true | _ => false
def isColon : Tok → Bool | .colon => true | _ => false
def isPound : Tok → Bool | .pound => true | _ => false
def isQuestion : Tok → Bool | .question => true | _ => false
def isPlus : Tok → Bool | .plus => true | _ => false
def isStar : Tok → Bool | .star => true | _ => false
def isDollar : Tok → Bool | .dollar => true | _ => false
def isDot : Tok → Bool | .dot => true | _ => false
def isCaret : Tok → Bool | .caret => true | _ => false
def isEq : Tok → Bool | .eq => true | _ => false
def isBrace : Tok → Bool | .braceGroup _ => true | _ => false
def isLitInt : Tok → Bool | .litInt _ => true | _ => false
def isLitFloat : Tok → Bool | .litFloat _ _ _ => true | _ => false
def isLitStr : Tok → Bool | .litStr _ => true | _ => false
def isLitChar : Tok → Bool | .litChar _ => true | _ => false

/-- Consume one expected punctuation token (a `Token![..]` parse). -/
def expect (p : Tok → Bool) (what : String) : List Tok → Res Unit
  | t :: rest => if p t then .ok () rest else .err ("expected " ++ what)
  | [] => .err ("expected " ++ what)

def parseLt : List Tok → Res Unit := expect isLt "`<`"
def parseGt : List Tok → Res Unit := expect isGt "`>`"
def parseSlash : List Tok → Res Unit := expect isSlash "`/`"
def parseBang : List Tok → Res Unit := expect isBang "`!`"
def parseMinus : List Tok → Res Unit := expect isMinus "`-`"
def parseColon : List Tok → Res Unit := expect isColon "`:`"
def parsePound : List Tok → Res Unit := expect isPound "`#`"
def parseQuestion : List Tok → Res Unit := expect isQuestion "`?`"

/-- Consume one expected keyword token (`Token![if]`, `kw::case`, ...). -/
def parseKw (k : String) : List Tok → Res Unit :=
  expect (isKw k) ("`" ++ k ++ "`")

/-- Opaque expression node of the external collaborator: it carries the raw
tokens of its region. -/
structure Expr where
  toks : List Tok

/-- Opaque pattern node of the external collaborator. -/
structure Pat where
  toks : List Tok

/-- Can a token start an expression atom of the collaborator's grammar? -/
def isExprAtom : Tok → Bool
  | .ident s => !(rustKeywords.contains s)
  | .litInt _ => true
  | .litFloat _ _ _ => true
  | .litStr _ => true
  | .litChar _ => true
  | .parenGroup _ => true
  | .bracketGroup _ => true
  | _ => false

/-- Binary operators the modelled expression grammar continues across. -/
def isBinOp : Tok → Bool
  | .plus => true
  | .minus => true
  | .star => true
  | .slash => true
  | _ => false

/-- Modelled from the spec: continuation loop of the external expression
collaborator (§6): after an atom, the expression region extends across field
accesses `.x`, call/index groups, `::` path segments, and binary operators
followed by an atom; anything else ends the region. -/
def exprCont : Nat → List Tok → List Tok → Res Expr
  | 0, _, _ => .diverge
  | g+1, acc, toks =>
    match toks with
    | .dot :: t :: rest =>
      if isExprAtom t then exprCont g (acc ++ [Tok.dot, t]) rest
      else .ok ⟨acc⟩ toks
    | .colon :: .colon :: t :: rest =>
      if isExprAtom t then exprCont g (acc ++ [Tok.colon, Tok.colon, t]) rest
      else .ok ⟨acc⟩ toks
    | .parenGroup inner :: rest => exprCont g (acc ++ [Tok.parenGroup inner]) rest
    | .bracketGroup inner :: rest => exprCont g (acc ++ [Tok.bracketGroup inner]) rest
    | op :: t :: rest =>
      if isBinOp op && isExprAtom t then exprCont g (acc ++ [op, t]) rest
      else .ok ⟨acc⟩ toks
    | _ => .ok ⟨acc⟩ toks

/-- Modelled from the spec: the external expression collaborator (§6), which
consumes exactly an expression region and returns an opaque node, or fails
with a parse error when no expression starts the input (for instance at a
`#` punctuation token). -/
def exprParse (g : Nat) (toks : List Tok) : Res Expr :=
  match toks with
  | t :: rest => if isExprAtom t then exprCont g [t] rest else .err "expected expression"
  | [] => .err "expected expression"

/-- Modelled from the spec: the external pattern collaborator
(`syn::Pat::parse_multi_with_leading_vert`, §4.5/§6): it consumes the pattern
region, which extends to the end of the input or to just before a trailing
`if` keyword (the guard), and fails when the region is empty. -/
def Pat.parse (toks : List Tok) : Res Pat :=
  let region := toks.takeWhile fun t => !(isKw "if" t)
  if region.isEmpty then .err "expected pattern"
  else .ok ⟨region⟩ (toks.drop region.length)

/-- Trailing `::`-separated segments of a `syn::Path` after its first
identifier. Returns the segment names and the unconsumed rest. -/
def pathTail : List Tok → (List String × List Tok)
  | .colon :: .colon :: .ident s :: rest =>
    if rustKeywords.contains s then ([], Tok.colon :: Tok.colon :: Tok.ident s :: rest)
    else
      let (segs, r) := pathTail rest
      (s :: segs, r)
  | toks => ([], toks)

/-- Parse of a `syn::Path` (used for element names): one identifier followed
by zero or more `::`-separated identifiers; the segment names are kept. -/
def Path.parse : List Tok → Res (List String)
  | .ident s :: rest =>
    if rustKeywords.contains s then .err "expected identifier"
    else
      let (segs, r) := pathTail rest
      .ok (s :: segs) r
  | _ => .err "expected path"

/-- Render a path, as `to_token_stream` does for error messages. -/
def renderPath (segs : List String) : String :=
  String.intercalate "::" segs

/-! ## Format-spec mini-grammar (`src/syntax/formatting.rs`) -/

/-- Alignment direction (`AlignDirection` in `formatting.rs`). -/
inductive AlignDirection where
  | right
  | center
  | left

/-- Alignment: optional fill character then a direction (`Align`). -/
structure Align where
  fill : Option Char
  direction : AlignDirection

/-- Sign flag (`Sign`). -/
inductive Sign where
  | positive
  | negative

/-- Precision count: a named parameter `name$` or an integer literal
(`Count` in `formatting.rs`). -/
inductive Count where
  | parameter (name : String)
  | integer (digits : List Char)

/-- Precision: `*` or a count (`Precision`). -/
inductive Precision where
  | star
  | count (c : Count)

/-- Output type of a format spec (`FormatType`). -/
inductive FormatType where
  | display
  | debug
  | debugLowerHex
  | debugUpperHex
  | other (name : String)

/-- Parse of `Count`: an integer literal, or an identifier immediately
followed by `$` (peeked two tokens ahead); otherwise an error. -/
def Count.parse : List Tok → Res Count
  | .litInt d :: rest => .ok (.integer d) rest
  | .ident s :: .dollar :: rest =>
    if rustKeywords.contains s then .err "Expected either integer or parameter `var$` here"
    else .ok (.parameter s) rest
  | _ => .err "Expected either integer or parameter `var$` here"

/-- Parse of `Precision`: `*`, else a `Count`. -/
def Precision.parse : List Tok → Res Precision
  | .star :: rest => .ok .star rest
  | toks => (Count.parse toks).map .count

/-- Result of `Numbers::parse`: presence of the implicit zero-pad flag, the
width literal, and the precision. -/
structure Numbers where
  zero : Bool
  width : Option (List Char)
  precision : Option Precision

/-- Leading-zero analysis of an integer literal's text, the
`match (&s[0..1], &s[1..2])` of `Numbers::parse`: two leading zeros are an
error (`none`); a single leading zero splits into the implicit zero-pad flag
plus the remaining digits; otherwise the text is the width unchanged. -/
def intSplit : List Char → Option (Bool × List Char)
  | '0' :: '0' :: _ => none
  | '0' :: c :: cs => some (true, c :: cs)
  | s => some (false, s)

/-- Parse of `Numbers` (width/zero/precision region of a format spec),
translated from `Numbers::parse` in `formatting.rs`: an integer literal with
an optional `. Precision` tail, or a float literal `W.F` reinterpreted as
width and precision (with empty `F`, the precision is parsed from the tokens
after the float literal; a suffixed float is an error), each followed by the
leading-zero analysis. -/
def Numbers.parse (toks : List Tok) : Res Numbers :=
  match toks with
  | .litInt s :: rest =>
    let pr : Res (Option Precision) :=
      match rest with
      | .dot :: rest2 => (Precision.parse rest2).map some
      | _ => .ok none rest
    andThen pr fun precision rest2 =>
      match intSplit s with
      | none => .err "Expected maximum one leading `0` here"
      | some (z, w) => .ok ⟨z, some w, precision⟩ rest2
  | .litFloat intPart fracPart suffix :: rest =>
    if suffix.isEmpty then
      let pr : Res Precision :=
        if fracPart.isEmpty then Precision.parse rest
        else .ok (.count (.integer fracPart)) rest
      andThen pr fun precision rest2 =>
        match intSplit intPart with
        | none => .err "Expected maximum one leading `0` here"
        | some (z, w) => .ok ⟨z, some w, some precision⟩ rest2
    else .err "Expected [`0`] [INT] [. INT] here"
  | _ => .err "Expected [`0`] [INT] [. INT] here"

/-- Peek of `Numbers`: an integer or float literal is next. -/
def Numbers.peek (toks : List Tok) : Bool :=
  headIs isLitInt toks || headIs isLitFloat toks

/-- Parse of `FormatType`, translated from `FormatType::parse`: empty input
is `Display`; a leading `?` is `Debug`; when the second token is `?`, an
identifier spelling `x` or `X` selects the debug-hex variants and any other
identifier is a hard error naming only `x`/`X`; otherwise a bare identifier
is captured as `Other`. -/
def FormatType.parse (toks : List Tok) : Res FormatType :=
  match toks with
  | [] => .ok .display []
  | _ =>
    if headIs isQuestion toks then
      andThen (parseQuestion toks) fun _ r => .ok .debug r
    else if peek2Is isQuestion toks then
      match toks with
      | .ident s :: rest =>
        if rustKeywords.contains s then .err "expected identifier"
        else
          andThen (parseQuestion rest) fun _ r2 =>
            if s = "x" then .ok .debugLowerHex r2
            else if s = "X" then .ok .debugUpperHex r2
            else .err "Expected either `x` or `X` here!"
      | _ => .err "expected identifier"
    else
      match toks with
      | .ident s :: rest =>
        if rustKeywords.contains s then .err "expected identifier"
        else .ok (.other s) rest
      | _ => .err "expected identifier"

/-- Peek of `Align`: one of `<`, `^`, `>` is the first or second upcoming
token (a fill character may occupy the first slot). -/
def Align.peek (toks : List Tok) : Bool :=
  headIs isLt toks || headIs isCaret toks || headIs isGt toks ||
  peek2Is isLt toks || peek2Is isCaret toks || peek2Is isGt toks

/-- Parse of `AlignDirection`: `>`, `^` or `<`. -/
def AlignDirection.parse : List Tok → Res AlignDirection
  | .gt :: rest => .ok .right rest
  | .caret :: rest => .ok .center rest
  | .lt :: rest => .ok .left rest
  | _ => .err "expected `>`, `^`, or `<`"

/-- Parse of `Align`: an optional fill character literal then a direction. -/
def Align.parse (toks : List Tok) : Res Align :=
  match toks with
  | .litChar c :: rest => (AlignDirection.parse rest).map fun d => ⟨some c, d⟩
  | _ => (AlignDirection.parse toks).map fun d => ⟨none, d⟩

/-- Peek of `Sign`: `+` or `-` is next. -/
def Sign.peek (toks : List Tok) : Bool :=
  headIs isPlus toks || headIs isMinus toks

/-- Parse of `Sign`. -/
def Sign.parse : List Tok → Res Sign
  | .plus :: rest => .ok .positive rest
  | .minus :: rest => .ok .negative rest
  | _ => .err "Expected `+` or `-` here!"

/-- Whole format spec (`Formatting` in `formatting.rs`): the `pretty` and
`zero` options are modelled as flags. -/
structure Formatting where
  align : Option Align
  sign : Option Sign
  pretty : Bool
  zero : Bool
  width : Option (List Char)
  precision : Option Precision
  _type : FormatType

/-- Parse of `Formatting`: each leading field is parsed only when its peek
matches, then the `Numbers` region, then the `FormatType` tail. -/
def Formatting.parse (toks : List Tok) : Res Formatting :=
  let alignRes : Res (Option Align) :=
    if Align.peek toks then (Align.parse toks).map some else .ok none toks
  andThen alignRes fun align r1 =>
  let signRes : Res (Option Sign) :=
    if Sign.peek r1 then (Sign.parse r1).map some else .ok none r1
  andThen signRes fun sign r2 =>
  let prettyRes : Res Bool :=
    if headIs isPound r2 then andThen (parsePound r2) fun _ r => .ok true r
    else .ok false r2
  andThen prettyRes fun pretty r3 =>
  let numbersRes : Res Numbers :=
    if Numbers.peek r3 then Numbers.parse r3 else .ok ⟨false, none, none⟩ r3
  andThen numbersRes fun nums r4 =>
  (FormatType.parse r4).map fun t =>
    ⟨align, sign, pretty, nums.zero, nums.width, nums.precision, t⟩

/-! ## Markup layer (`src/syntax/jsx.rs`) and Mustache (`src/syntax/mustache.rs`) -/

/-- Attribute values: a string literal or a braced expression
(`AttributeValue` in `jsx.rs`). -/
inductive AttributeValue where
  | litStr (s : String)
  | expr (e : Expr)

/-- Attributes: a braced spread `\x7b .. expr \x7d` or a named attribute with
an optional `= value` initializer (`Attribute` in `jsx.rs`). -/
inductive Attribute where
  | spread (e : Expr)
  | named (key : String) (initializer : Option AttributeValue)

/-- Parse of `AttributeValue`: string literal vs brace group by first-token
peek; the braced form parses an expression filling the whole group. -/
def AttributeValue.parse (g : Nat) : List Tok → Res AttributeValue
  | .litStr s :: rest => .ok (.litStr s) rest
  | .braceGroup inner :: rest =>
    andThen (exprParse g inner) fun e innerRest =>
      if innerRest.isEmpty then .ok (.expr e) rest else .err "unexpected token"
  | _ => .err "expected string literal or attribute value"

/-- Parse of `SpreadAttribute`: a brace group containing `..` then an
expression filling the rest of the group. -/
def SpreadAttribute.parse (g : Nat) : List Tok → Res Attribute
  | .braceGroup (.dot :: .dot :: innerRest) :: rest =>
    andThen (exprParse g innerRest) fun e innerRest2 =>
      if innerRest2.isEmpty then .ok (.spread e) rest else .err "unexpected token"
  | .braceGroup _ :: _ => .err "expected `..`"
  | _ => .err "expected curly braces"

/-- Parse of `NamedAttribute`: an identifier key, then an initializer only
when `=` is peeked. -/
def NamedAttribute.parse (g : Nat) : List Tok → Res Attribute
  | .ident s :: rest =>
    if rustKeywords.contains s then .err "expected identifier"
    else if headIs isEq rest then
      andThen (expect isEq "`=`" rest) fun _ r2 =>
        (AttributeValue.parse g r2).map fun v => .named s (some v)
    else .ok (.named s none) rest
  | _ => .err "expected identifier"

/-- Parse of one `Attribute`: Spread when a brace group is next, Named when
an identifier is next (first-token peek only). -/
def Attribute.parse (g : Nat) (toks : List Tok) : Res Attribute :=
  if headIs isBrace toks then SpreadAttribute.parse g toks
  else if headIs acceptIdent toks then NamedAttribute.parse g toks
  else .err "expected spread attribute or named attribute"

/-- The attribute-list loop `parse_attrs`: parse attributes greedily while
the next token is neither `>` nor `/`. -/
def parse_attrs : Nat → List Tok → Res (List Attribute)
  | 0, _ => .diverge
  | g+1, toks =>
    if headIs isGt toks || headIs isSlash toks then .ok [] toks
    else
      andThen (Attribute.parse g toks) fun a rest =>
        (parse_attrs g rest).map (a :: ·)

/-- Opening tag of a closed element: `<name attrs...>`. -/
structure OpeningElement where
  name : List String
  attributes : List Attribute

/-- Closing tag `</name>`. -/
structure ClosingElement where
  name : List String

/-- Parse of `OpeningElement`: `<`, name path, attributes, `>`. -/
def OpeningElement.parse (g : Nat) (toks : List Tok) : Res OpeningElement :=
  andThen (parseLt toks) fun _ r1 =>
  andThen (Path.parse r1) fun name r2 =>
  andThen (parse_attrs g r2) fun attrs r3 =>
  andThen (parseGt r3) fun _ r4 =>
  .ok ⟨name, attrs⟩ r4

/-- Parse of `ClosingElement`: `<`, `/`, name path, `>`. -/
def ClosingElement.parse (toks : List Tok) : Res ClosingElement :=
  andThen (parseLt toks) fun _ r1 =>
  andThen (parseSlash r1) fun _ r2 =>
  andThen (Path.parse r2) fun name r3 =>
  andThen (parseGt r3) fun _ r4 =>
  .ok ⟨name⟩ r4

/-- HTML/XML-style comment node (`Comment` in `jsx.rs`). -/
structure Comment where
  contents : List Tok

/-- Speculative peek of `Comment`: fork the cursor, parse `<` on the fork,
then check that `!`, `-`, `-` follow; a failed speculative parse resolves to
`false` (`r.unwrap_or_default()` in the source). -/
def Comment.peek (toks : List Tok) : Bool :=
  match parseLt toks with
  | .ok _ f => headIs isBang f && peek2Is isMinus f && peek3Is isMinus f
  | _ => false

/-- Contents loop of `Comment::parse`: consume one token tree at a time
until `-`, `-`, `>` are the next three tokens (end of input mid-comment is
an error, since the loop then tries to consume a token). -/
def Comment.contentsGo (acc : List Tok) : List Tok → Res (List Tok)
  | [] => .err "unexpected end of input"
  | t :: rest =>
    if headIs isMinus (t :: rest) && peek2Is isMinus (t :: rest) &&
        peek3Is isGt (t :: rest) then
      .ok acc (t :: rest)
    else Comment.contentsGo (acc ++ [t]) rest

/-- Parse of `Comment`: the `<!--` opening, the contents loop, and the `-->`
closing. -/
def Comment.parse (toks : List Tok) : Res Comment :=
  andThen (parseLt toks) fun _ r1 =>
  andThen (parseBang r1) fun _ r2 =>
  andThen (parseMinus r2) fun _ r3 =>
  andThen (parseMinus r3) fun _ r4 =>
  andThen (Comment.contentsGo [] r4) fun contents r5 =>
  andThen (parseMinus r5) fun _ r6 =>
  andThen (parseMinus r6) fun _ r7 =>
  andThen (parseGt r7) fun _ r8 =>
  .ok ⟨contents⟩ r8

/-- Stop condition of `Text::parse`: `<`, `>` or a brace group ends a text
run (`\x7d` cannot occur as a free token: the tokenizer only delivers it as
part of a brace group). -/
def isTextStop (t : Tok) : Bool :=
  isLt t || isGt t || isBrace t

/-- The loop of `Text::parse`: consume token trees while none of the stop
tokens is next; reaching end of input makes the loop body's token parse
fail. An empty run (stop token immediately next) succeeds consuming
nothing. -/
def Text.go (acc : List Tok) : List Tok → Res (List Tok)
  | [] => .err "unexpected end of input"
  | t :: rest =>
    if isTextStop t then .ok acc (t :: rest)
    else Text.go (acc ++ [t]) rest

/-- Parse of `Text`. -/
def Text.parse (toks : List Tok) : Res (List Tok) :=
  Text.go [] toks

/-- A Mustache interpolation: a brace group with an expression and an
optional `: format-spec` tail (`Mustache` in `mustache.rs`). -/
structure Mustache where
  expr : Expr
  formatting : Option Formatting

/-- Parse of `Mustache`: a brace group; inside it an expression, then, only
when `:` is peeked, a formatting group; the group must be filled exactly. -/
def Mustache.parse (g : Nat) : List Tok → Res Mustache
  | .braceGroup inner :: rest =>
    andThen (exprParse g inner) fun e innerRest =>
      if headIs isColon innerRest then
        andThen (parseColon innerRest) fun _ ir2 =>
        andThen (Formatting.parse ir2) fun f ir3 =>
          if ir3.isEmpty then .ok ⟨e, some f⟩ rest else .err "unexpected token"
      else if innerRest.isEmpty then .ok ⟨e, none⟩ rest
      else .err "unexpected token"
  | _ => .err "expected curly braces"

mutual

/-- The markup AST's element node: `Closed` with opening tag, children and
closing tag, or `SelfClosing` (`Element` in `jsx.rs`). -/
inductive Element where
  | closed (opening : OpeningElement) (children : List Child) (closing : ClosingElement)
  | selfClosing (name : List String) (attributes : List Attribute)

/-- A child node of markup or block bodies (`Child` in `jsx.rs`): note the
variants are exactly Text, Element, Fragment, Mustache, Comment — the
source's `Child` enum has no Block variant. -/
inductive Child where
  | text (contents : List Tok)
  | element (e : Element)
  | fragment (children : List Child)
  | mustache (m : Mustache)
  | comment (c : Comment)

end

/-- The check guarding the exit of the `ClosedElement::parse` loop: next
three tokens are `<`, `/`, `syn::Ident`, and then the closing name path
(read on a fork) matches the opening name segmentwise under `zip` — each
zipped pair of segment identifiers is equal, any length difference being
ignored. -/
def closingMatch (name : List String) (toks : List Tok) : Bool :=
  if headIs isLt toks && peek2Is isSlash toks && peek3Is acceptIdent toks then
    match toks with
    | _ :: _ :: rest =>
      match Path.parse rest with
      | .ok segs _ => (segs.zip name).all fun p => p.1 == p.2
      | _ => false
    | _ => false
  else false

mutual

/-- Dispatch of `Child::parse` (first match wins): `<` then `>` is a
Fragment; `<` then an identifier is an Element; a brace group is a Mustache
interpolation; a comment peek is a Comment; otherwise a Text run. -/
def Child.parse : Nat → List Tok → Res Child
  | 0, _ => .diverge
  | g+1, toks =>
    if headIs isLt toks && peek2Is isGt toks then
      (Fragment.parse g toks).map .fragment
    else if headIs isLt toks && peek2Is acceptIdent toks then
      (Element.parse g toks).map .element
    else if headIs isBrace toks then
      (Mustache.parse g toks).map .mustache
    else if Comment.peek toks then
      (Comment.parse toks).map .comment
    else
      (Text.parse toks).map .text

/-- The children loop of a fragment (`parse_fragment_children`): parse one
`Child` at a time while the next three tokens are not `<`, `/`, `>`. -/
def parse_fragment_children : Nat → List Tok → Res (List Child)
  | 0, _ => .diverge
  | g+1, toks =>
    if headIs isLt toks && peek2Is isSlash toks && peek3Is isGt toks then
      .ok [] toks
    else
      andThen (Child.parse g toks) fun c rest =>
        (parse_fragment_children g rest).map (c :: ·)

/-- Parse of `Fragment`: the `<>` opening, the children loop, the `</>`
closing; the node keeps only its children. -/
def Fragment.parse : Nat → List Tok → Res (List Child)
  | 0, _ => .diverge
  | g+1, toks =>
    andThen (parseLt toks) fun _ r1 =>
    andThen (parseGt r1) fun _ r2 =>
    andThen (parse_fragment_children g r2) fun children r3 =>
    andThen (parseLt r3) fun _ r4 =>
    andThen (parseSlash r4) fun _ r5 =>
    andThen (parseGt r5) fun _ r6 =>
    .ok children r6

/-- Dispatch of `Element::parse`: on a fork, consume `<`, a name path and
the attribute list (errors from the speculative prefix propagate via `?` in
the source), then decide by the next fork token: `/` selects SelfClosing and
`>` selects Closed, each re-parsed from the real cursor; anything else is an
error. -/
def Element.parse : Nat → List Tok → Res Element
  | 0, _ => .diverge
  | g+1, toks =>
    andThen (parseLt toks) fun _ f1 =>
    andThen (Path.parse f1) fun _ f2 =>
    andThen (parse_attrs g f2) fun _ f3 =>
      if headIs isSlash f3 then SelfClosingElement.parse g toks
      else if headIs isGt f3 then ClosedElement.parse g toks
      else .err "Expected either opening or self-closing tag here"

/-- Parse of `SelfClosingElement`: `<`, name, attributes, `/`, `>`. -/
def SelfClosingElement.parse : Nat → List Tok → Res Element
  | 0, _ => .diverge
  | g+1, toks =>
    andThen (parseLt toks) fun _ r1 =>
    andThen (Path.parse r1) fun name r2 =>
    andThen (parse_attrs g r2) fun attrs r3 =>
    andThen (parseSlash r3) fun _ r4 =>
    andThen (parseGt r4) fun _ r5 =>
    .ok (.selfClosing name attrs) r5

/-- Parse of `ClosedElement`: the opening tag, then the children loop. -/
def ClosedElement.parse : Nat → List Tok → Res Element
  | 0, _ => .diverge
  | g+1, toks =>
    andThen (OpeningElement.parse g toks) fun op r =>
      (ClosedElement.loop g op r).map fun pr => .closed op pr.1 pr.2

/-- The children loop of `ClosedElement::parse`: end of input is a hard
error citing the unmatched opening name; a matching `</name ...>` (see
`closingMatch`) ends the loop by parsing the closing tag; otherwise one
`Child` is parsed and the loop continues. -/
def ClosedElement.loop : Nat → OpeningElement → List Tok → Res (List Child × ClosingElement)
  | 0, _, _ => .diverge
  | g+1, op, toks =>
    if toks.isEmpty then
      .err ("Did not find appropriate closing tag `<" ++ renderPath op.name ++ "/>`")
    else if closingMatch op.name toks then
      andThen (ClosingElement.parse toks) fun cl rest => .ok ([], cl) rest
    else
      andThen (Child.parse g toks) fun c rest =>
        (ClosedElement.loop g op rest).map fun pr => (c :: pr.1, pr.2)

end

/-- Root of a parse: `<` then `>` is a Fragment, `<` then an identifier is
an Element, anything else is a hard error (`Root` in `jsx.rs`). -/
inductive Root where
  | element (e : Element)
  | fragment (children : List Child)

/-- Parse of `Root`. -/
def Root.parse (g : Nat) (toks : List Tok) : Res Root :=
  if headIs isLt toks then
    if peek2Is isGt toks then (Fragment.parse g toks).map .fragment
    else if peek2Is acceptIdent toks then (Element.parse g toks).map .element
    else .err "Expected either element or fragment here"
  else .err "Expected either element or fragment here"

/-! ## Svelte-style control blocks (`src/syntax/svelte/**`) -/

/-- Fork-and-look-inside-braces helper (`inside_braces` in
`svelte/mod.rs`): on a fork of the cursor, open the next brace group and
return its interior; fails when no brace group is next.  The returned rest
is the original cursor's (the fork is discarded). -/
def inside_braces : List Tok → Res (List Tok)
  | .braceGroup inner :: rest => .ok inner rest
  | _ => .err "expected curly braces"

/-- Speculative peek of `IfOpening` (`\x7b#if ...\x7d`): inside the braces,
`#` then `if`; a failed speculative parse resolves to `false`. -/
def IfOpening.peek (toks : List Tok) : Bool :=
  match inside_braces toks with
  | .ok inner _ => headIs isPound inner && peek2Is (isKw "if") inner
  | _ => false

/-- Speculative peek of `IfClosing` (`\x7b/if\x7d`). -/
def IfClosing.peek (toks : List Tok) : Bool :=
  match inside_braces toks with
  | .ok inner _ => headIs isSlash inner && peek2Is (isKw "if") inner
  | _ => false

/-- Speculative peek of `ElseDivider` (`\x7b:else\x7d`): `:` then `else`
then NOT `if`. -/
def ElseDivider.peek (toks : List Tok) : Bool :=
  match inside_braces toks with
  | .ok inner _ =>
    headIs isColon inner && peek2Is (isKw "else") inner &&
      !(peek3Is (isKw "if") inner)
  | _ => false

/-- Speculative peek of `ElseIfDivider` (`\x7b:else if ...\x7d`). -/
def ElseIfDivider.peek (toks : List Tok) : Bool :=
  match inside_braces toks with
  | .ok inner _ =>
    headIs isColon inner && peek2Is (isKw "else") inner &&
      peek3Is (isKw "if") inner
  | _ => false

/-- Speculative peek of `MatchOpening` (`\x7b#match ...\x7d`). -/
def MatchOpening.peek (toks : List Tok) : Bool :=
  match inside_braces toks with
  | .ok inner _ => headIs isPound inner && peek2Is (isKw "match") inner
  | _ => false

/-- Speculative peek of `MatchClosing` (`\x7b/match\x7d`). -/
def MatchClosing.peek (toks : List Tok) : Bool :=
  match inside_braces toks with
  | .ok inner _ => headIs isSlash inner && peek2Is (isKw "match") inner
  | _ => false

/-- Speculative peek of `CaseDivider` (`\x7b:case ...\x7d`): `:` then the
custom keyword `case`. -/
def CaseDivider.peek (toks : List Tok) : Bool :=
  match inside_braces toks with
  | .ok inner _ => headIs isColon inner && peek2Is (isKw "case") inner
  | _ => false

/-- Opening of an If block, keeping its condition. -/
structure IfOpening where
  expr : Expr

/-- Parse of `IfOpening`: a brace group filled by `#`, `if`, expression. -/
def IfOpening.parse (g : Nat) : List Tok → Res IfOpening
  | .braceGroup inner :: rest =>
    andThen (parsePound inner) fun _ i1 =>
    andThen (parseKw "if" i1) fun _ i2 =>
    andThen (exprParse g i2) fun e i3 =>
      if i3.isEmpty then .ok ⟨e⟩ rest else .err "unexpected token"
  | _ => .err "expected curly braces"

/-- Parse of `IfClosing`: a brace group filled by `/`, `if`. -/
def IfClosing.parse : List Tok → Res Unit
  | .braceGroup inner :: rest =>
    andThen (parseSlash inner) fun _ i1 =>
    andThen (parseKw "if" i1) fun _ i2 =>
      if i2.isEmpty then .ok () rest else .err "unexpected token"
  | _ => .err "expected curly braces"

/-- If-block dividers (`IfDivider` in `if_block.rs`). -/
inductive IfDivider where
  | Else
  | ElseIf (expr : Expr)

/-- Parse of `ElseDivider`: a brace group filled by `:`, `else`. -/
def ElseDivider.parse : List Tok → Res IfDivider
  | .braceGroup inner :: rest =>
    andThen (parseColon inner) fun _ i1 =>
    andThen (parseKw "else" i1) fun _ i2 =>
      if i2.isEmpty then .ok .Else rest else .err "unexpected token"
  | _ => .err "expected curly braces"

/-- Parse of `ElseIfDivider`: a brace group filled by `:`, `else`, `if`,
expression. -/
def ElseIfDivider.parse (g : Nat) : List Tok → Res IfDivider
  | .braceGroup inner :: rest =>
    andThen (parseColon inner) fun _ i1 =>
    andThen (parseKw "else" i1) fun _ i2 =>
    andThen (parseKw "if" i2) fun _ i3 =>
    andThen (exprParse g i3) fun e i4 =>
      if i4.isEmpty then .ok (.ElseIf e) rest else .err "unexpected token"
  | _ => .err "expected curly braces"

/-- Peek of `IfDivider`: either divider form. -/
def IfDivider.peek (toks : List Tok) : Bool :=
  ElseDivider.peek toks || ElseIfDivider.peek toks

/-- Dispatch of `IfDivider::parse`: ElseIf is tried first, then Else,
otherwise a hard error. -/
def IfDivider.parse (g : Nat) (toks : List Tok) : Res IfDivider :=
  if ElseIfDivider.peek toks then ElseIfDivider.parse g toks
  else if ElseDivider.peek toks then ElseDivider.parse toks
  else .err "Expected either `\x7b:else if ...\x7d`, or `\x7b:else\x7d` here"

/-- The generic children loop `parse_until`: repeatedly runs the given
parser while the stop predicate is false on the current position. -/
def parse_until (child : Nat → List Tok → Res α) :
    Nat → (List Tok → Bool) → List Tok → Res (List α)
  | 0, _, _ => .diverge
  | g+1, pred, toks =>
    if pred toks then .ok [] toks
    else
      andThen (child g toks) fun a rest =>
        (parse_until child g pred rest).map (a :: ·)

/-- The generic divider-segmented loop `parse_divided_until`: while the stop
predicate is false, parse one divider and then children until the next
divider peek or the stop predicate, accumulating the pairs in order. -/
def parse_divided_until (child : Nat → List Tok → Res α)
    (divParse : Nat → List Tok → Res δ) (divPeek : List Tok → Bool) :
    Nat → (List Tok → Bool) → List Tok → Res (List (δ × List α))
  | 0, _, _ => .diverge
  | g+1, pred, toks =>
    if pred toks then .ok [] toks
    else
      andThen (divParse g toks) fun d r1 =>
      andThen (parse_until child g (fun i => divPeek i || pred i) r1) fun cs r2 =>
        (parse_divided_until child divParse divPeek g pred r2).map ((d, cs) :: ·)

/-- An If block: opening condition, body children, divider segments
(`IfBlock` in `if_block.rs`; the closing tag carries no data). -/
structure IfBlock where
  opening : IfOpening
  children : List Child
  dividers : List (IfDivider × List Child)

/-- Peek of `IfBlock`. -/
def IfBlock.peek (toks : List Tok) : Bool :=
  IfOpening.peek toks

/-- Parse of `IfBlock`: opening, then children until a divider or the
closing peeks, then the divider segments until the closing peeks, then the
closing. -/
def IfBlock.parse : Nat → List Tok → Res IfBlock
  | 0, _ => .diverge
  | g+1, toks =>
    andThen (IfOpening.parse g toks) fun op r1 =>
    andThen (parse_until Child.parse g
        (fun i => IfDivider.peek i || IfClosing.peek i) r1) fun cs r2 =>
    andThen (parse_divided_until Child.parse IfDivider.parse IfDivider.peek g
        IfClosing.peek r2) fun ds r3 =>
      (IfClosing.parse r3).map fun _ => ⟨op, cs, ds⟩

/-- The guard tail of a case divider (`guard_parse` in `match_block.rs`):
`None` when the divider's interior is already exhausted, otherwise an `if`
token followed by the guard expression. -/
def guard_parse (g : Nat) (toks : List Tok) : Res (Option Expr) :=
  if toks.isEmpty then .ok none toks
  else
    andThen (parseKw "if" toks) fun _ r =>
      (exprParse g r).map some

/-- A case divider: the pattern and the optional guard condition
(`CaseDivider` in `match_block.rs`). -/
structure CaseDivider where
  pattern : Pat
  guard : Option Expr

/-- Parse of `CaseDivider`: a brace group filled by `:`, the custom keyword
`case`, a pattern (multi-pattern with optional leading `|`, delegated), and
the guard tail. -/
def CaseDivider.parse (g : Nat) : List Tok → Res CaseDivider
  | .braceGroup inner :: rest =>
    andThen (parseColon inner) fun _ i1 =>
    andThen (parseKw "case" i1) fun _ i2 =>
    andThen (Pat.parse i2) fun pat i3 =>
    andThen (guard_parse g i3) fun gd i4 =>
      if i4.isEmpty then .ok ⟨pat, gd⟩ rest else .err "unexpected token"
  | _ => .err "expected curly braces"

/-- Opening of a Match block, keeping the matched expression. -/
structure MatchOpening where
  expr : Expr

/-- Parse of `MatchOpening`: a brace group filled by `#`, `match`,
expression. -/
def MatchOpening.parse (g : Nat) : List Tok → Res MatchOpening
  | .braceGroup inner :: rest =>
    andThen (parsePound inner) fun _ i1 =>
    andThen (parseKw "match" i1) fun _ i2 =>
    andThen (exprParse g i2) fun e i3 =>
      if i3.isEmpty then .ok ⟨e⟩ rest else .err "unexpected token"
  | _ => .err "expected curly braces"

/-- Parse of `MatchClosing`: a brace group filled by `/`, `match`. -/
def MatchClosing.parse : List Tok → Res Unit
  | .braceGroup inner :: rest =>
    andThen (parseSlash inner) fun _ i1 =>
    andThen (parseKw "match" i1) fun _ i2 =>
      if i2.isEmpty then .ok () rest else .err "unexpected token"
  | _ => .err "expected curly braces"

/-- A Match block: the matched expression, the leading children (typed as
comments only: the children loop runs `Comment::parse`), and the case
segments (`MatchBlock` in `match_block.rs`). -/
structure MatchBlock where
  opening : MatchOpening
  children : List Comment
  cases : List (CaseDivider × List Child)

/-- Peek of `MatchBlock`. -/
def MatchBlock.peek (toks : List Tok) : Bool :=
  MatchOpening.peek toks

/-- Parse of `MatchBlock`: opening, then Comment nodes until the closing or
a case divider peeks, then the case segments until the closing peeks, then
the closing. -/
def MatchBlock.parse : Nat → List Tok → Res MatchBlock
  | 0, _ => .diverge
  | g+1, toks =>
    andThen (MatchOpening.parse g toks) fun op r1 =>
    andThen (parse_until (fun _ t => Comment.parse t) g
        (fun i => MatchClosing.peek i || CaseDivider.peek i) r1) fun cs r2 =>
    andThen (parse_divided_until Child.parse CaseDivider.parse CaseDivider.peek g
        MatchClosing.peek r2) fun cases r3 =>
      (MatchClosing.parse r3).map fun _ => ⟨op, cs, cases⟩

/-- A control block (`Block` in `svelte/blocks/mod.rs`). -/
inductive Block where
  | If (b : IfBlock)
  | Match (b : MatchBlock)

/-- Peek of `Block`: either block kind. -/
def Block.peek (toks : List Tok) : Bool :=
  IfBlock.peek toks || MatchBlock.peek toks

/-- Dispatch of `Block::parse`: If when the If opening peeks, Match when the
Match opening peeks; otherwise the source runs `unimplemented!("Ahhh")`, a
panic — modelled as `abort`, not a typed `err`. -/
def Block.parse (g : Nat) (toks : List Tok) : Res Block :=
  if IfBlock.peek toks then (IfBlock.parse g toks).map .If
  else if MatchBlock.peek toks then (MatchBlock.parse g toks).map .Match
  else .abort "not implemented: Ahhh"

/-! ## Specification-side predicates and concrete inputs used by the
theorems below -/

/-- Declarative form of the comment peek: the next four tokens are
`<`, `!`, `-`, `-`. -/
def Comment.peekSpec : List Tok → Bool
  | .lt :: .bang :: .minus :: .minus :: _ => true
  | _ => false

/-- Declarative form of the If-opening peek: a brace group whose interior
starts `#` then the keyword `if`. -/
def IfOpening.peekSpec : List Tok → Bool
  | .braceGroup (.pound :: t :: _) :: _ => isKw "if" t
  | _ => false

/-- Declarative form of the If-closing peek: a brace group whose interior
starts `/` then `if`. -/
def IfClosing.peekSpec : List Tok → Bool
  | .braceGroup (.slash :: t :: _) :: _ => isKw "if" t
  | _ => false

/-- Declarative form of the Else-divider peek: a brace group whose interior
starts `:` then `else` not followed by `if`. -/
def ElseDivider.peekSpec : List Tok → Bool
  | .braceGroup (.colon :: t :: rest) :: _ =>
    isKw "else" t && !(headIs (isKw "if") rest)
  | _ => false

/-- Declarative form of the ElseIf-divider peek: a brace group whose
interior starts `:`, `else`, `if`. -/
def ElseIfDivider.peekSpec : List Tok → Bool
  | .braceGroup (.colon :: t :: u :: _) :: _ => isKw "else" t && isKw "if" u
  | _ => false

/-- Declarative form of the Match-opening peek. -/
def MatchOpening.peekSpec : List Tok → Bool
  | .braceGroup (.pound :: t :: _) :: _ => isKw "match" t
  | _ => false

/-- Declarative form of the Match-closing peek. -/
def MatchClosing.peekSpec : List Tok → Bool
  | .braceGroup (.slash :: t :: _) :: _ => isKw "match" t
  | _ => false

/-- Declarative form of the case-divider peek: a brace group whose interior
starts `:` then the custom keyword `case`. -/
def CaseDivider.peekSpec : List Tok → Bool
  | .braceGroup (.colon :: t :: _) :: _ => isKw "case" t
  | _ => false

/-- The closing-tag matching rule as the spec words it: the next three
tokens are `<`, `/`, an identifier-path, and every pair of corresponding
segment identifiers of the closing path and the opening name is equal —
positions beyond the shorter of the two (any other path difference) are
ignored. -/
def closingMatchSpec (name : List String) (toks : List Tok) : Prop :=
  ∃ s rest, toks = Tok.lt :: Tok.slash :: Tok.ident s :: rest ∧
    rustKeywords.contains s = false ∧
    ∀ i, i < min (s :: (pathTail rest).1).length name.length →
      (s :: (pathTail rest).1).get? i = name.get? i

/-- A control-block opening `\x7b#if cond\x7d` sitting at a child
position. -/
def blockChildToks : List Tok :=
  [Tok.braceGroup [Tok.pound, Tok.ident "if", Tok.ident "cond"]]

/-- The token sequence `> < / >`: the state of the fragment-children loop
after parsing `<>` of the source `<> > </>` — a stray `>` at a child
position. -/
def stuckToks : List Tok := [Tok.gt, Tok.lt, Tok.slash, Tok.gt]

/-- Tokens of `<a::b>x</a>`: a closed element whose closing tag matches the
opening name only on the common prefix of their segment lists. -/
def closedElementToks : List Tok :=
  [Tok.lt, Tok.ident "a", Tok.colon, Tok.colon, Tok.ident "b", Tok.gt,
   Tok.ident "x", Tok.lt, Tok.slash, Tok.ident "a", Tok.gt]

/-- Tokens of `\x7b#if c1\x7d t1 \x7b:else if c2\x7d t2 \x7b:else\x7d t3
\x7b/if\x7d`. -/
def ifBlockToks : List Tok :=
  [Tok.braceGroup [Tok.pound, Tok.ident "if", Tok.ident "c1"],
   Tok.ident "t1",
   Tok.braceGroup [Tok.colon, Tok.ident "else", Tok.ident "if", Tok.ident "c2"],
   Tok.ident "t2",
   Tok.braceGroup [Tok.colon, Tok.ident "else"],
   Tok.ident "t3",
   Tok.braceGroup [Tok.slash, Tok.ident "if"]]

/-- Tokens of `\x7b#match subject\x7d <!-- note --> \x7b:case p1\x7d t1
\x7b:case p2 if g2\x7d t2 \x7b/match\x7d`. -/
def matchBlockToks : List Tok :=
  [Tok.braceGroup [Tok.pound, Tok.ident "match", Tok.ident "subject"],
   Tok.lt, Tok.bang, Tok.minus, Tok.minus, Tok.ident "note", Tok.minus,
   Tok.minus, Tok.gt,
   Tok.braceGroup [Tok.colon, Tok.ident "case", Tok.ident "p1"],
   Tok.ident "t1",
   Tok.braceGroup [Tok.colon, Tok.ident "case", Tok.ident "p2",
     Tok.ident "if", Tok.ident "g2"],
   Tok.ident "t2",
   Tok.braceGroup [Tok.slash, Tok.ident "match"]]

/-- Tokens of `\x7b#match x\x7d stray \x7b/match\x7d`: a text child sits
before the first case. -/
def matchStrayToks : List Tok :=
  [Tok.braceGroup [Tok.pound, Tok.ident "match", Tok.ident "x"],
   Tok.ident "stray",
   Tok.braceGroup [Tok.slash, Tok.ident "match"]]

/-! ## Helper lemmas -/

/-- Pairwise `zip`-equality of two string lists is pointwise equality up to
the shorter length. -/
theorem zip_all_eq_iff (a b : List String) :
    ((a.zip b).all fun p => p.1 == p.2) = true ↔
      ∀ i, i < min a.length b.length → a.get? i = b.get? i := by
  induction a generalizing b with
  | nil => simp
  | cons x xs ih =>
    cases b with
    | nil => simp
    | cons y ys =>
      simp only [List.zip_cons_cons, List.all_cons, Bool.and_eq_true, beq_iff_eq,
        List.length_cons, Nat.succ_min_succ, ih]
      constructor
      · rintro ⟨hxy, h⟩ i hi
        cases i with
        | zero => simp [hxy]
        | succ j =>
          have hj : j < min xs.length ys.length := by omega
          simpa using h j hj
      · intro h
        refine ⟨by simpa using h 0 (by omega), fun j hj => by simpa using h (j+1) (by omega)⟩

set_option maxHeartbeats 2000000 in
/-- The fork-based closing-tag check agrees with its declarative
specification. -/
theorem closingMatch_eq_spec (name : List String) (toks : List Tok) :
    closingMatch name toks = true ↔ closingMatchSpec name toks := by
  cases toks with
  | nil => simp [closingMatch, closingMatchSpec, headIs]
  | cons t1 r1 =>
    cases t1 <;>
      try (simp [closingMatch, closingMatchSpec, headIs, isLt, isGt, isSlash]; done)
    case lt =>
      cases r1 with
      | nil => simp [closingMatch, closingMatchSpec, headIs, isLt, peek2Is]
      | cons t2 r2 =>
        cases t2 <;>
          try (simp [closingMatch, closingMatchSpec, headIs, isLt, isSlash, peek2Is]; done)
        case slash =>
          cases r2 with
          | nil =>
            simp [closingMatch, closingMatchSpec, headIs, isLt, isSlash, peek2Is, peek3Is]
          | cons t3 r3 =>
            cases t3 <;>
              try (simp [closingMatch, closingMatchSpec, headIs, isLt, isSlash, peek2Is,
                peek3Is, acceptIdent]; done)
            case ident s =>
              by_cases hkw : rustKeywords.contains s = true
              · refine iff_of_false ?_ ?_
                · intro h
                  simp [closingMatch, headIs, isLt, isSlash, peek2Is, peek3Is,
                    acceptIdent, hkw] at h
                  exact h.1 (by simpa using hkw)
                · rintro ⟨s', r', heq, hkw', -⟩
                  obtain ⟨-, h2⟩ := List.cons.inj heq
                  obtain ⟨-, h4⟩ := List.cons.inj h2
                  obtain ⟨h5, -⟩ := List.cons.inj h4
                  obtain rfl := Tok.ident.inj h5
                  rw [hkw'] at hkw
                  exact absurd hkw (by simp)
              · have hc : rustKeywords.contains s = false := by simpa using hkw
                have hmem : s ∉ rustKeywords := by simpa using hkw
                have hpath : Path.parse (Tok.ident s :: r3) =
                    Res.ok (s :: (pathTail r3).1) (pathTail r3).2 := by
                  simp [Path.parse, hmem]
                have hlhs : closingMatch name (Tok.lt :: Tok.slash :: Tok.ident s :: r3) =
                    (((s :: (pathTail r3).1).zip name).all fun p => p.1 == p.2) := by
                  simp only [closingMatch, headIs, isLt, isSlash, peek2Is, peek3Is,
                    acceptIdent, hc, Bool.not_false, Bool.and_self, Bool.true_and,
                    Bool.and_true, if_true, hpath]
                rw [hlhs]
                constructor
                · intro h
                  exact ⟨s, r3, rfl, hc, (zip_all_eq_iff _ _).mp h⟩
                · rintro ⟨s', r', heq, hkw', hpt⟩
                  obtain ⟨-, h2⟩ := List.cons.inj heq
                  obtain ⟨-, h4⟩ := List.cons.inj h2
                  obtain ⟨h5, h6⟩ := List.cons.inj h4
                  obtain rfl := Tok.ident.inj h5
                  subst h6
                  exact (zip_all_eq_iff _ _).mpr hpt

/-- A single leading zero splits off the zero-pad flag. -/
theorem intSplit_single_zero (r : Char) (rs : List Char) (h : r ≠ '0') :
    intSplit ('0' :: r :: rs) = some (true, r :: rs) := by
  simp [intSplit, h]

/-- Without a leading zero the literal text is the width unchanged. -/
theorem intSplit_no_zero (W : List Char) (h : W.head? ≠ some '0') :
    intSplit W = some (false, W) := by
  match W with
  | [] => rfl
  | c :: cs =>
    have hc : c ≠ '0' := by simpa using h
    match cs with
    | [] => simp [intSplit, hc]
    | d :: ds => simp [intSplit, hc]

/-- The precision parser only succeeds or fails with a typed error: it
never aborts and never diverges. -/
theorem precision_ok_or_err (toks : List Tok) :
    (∃ p r, Precision.parse toks = .ok p r) ∨ (∃ m, Precision.parse toks = .err m) := by
  cases toks with
  | nil => exact Or.inr ⟨_, rfl⟩
  | cons t rest =>
    cases t <;>
      first
        | exact Or.inl ⟨_, _, rfl⟩
        | exact Or.inr ⟨_, rfl⟩
        | skip
    case ident s =>
      cases rest with
      | nil => exact Or.inr ⟨_, rfl⟩
      | cons u r2 =>
        cases u <;> try (exact Or.inr ⟨_, rfl⟩)
        case dollar =>
          by_cases hkw : s ∈ rustKeywords
          · exact Or.inr ⟨"Expected either integer or parameter `var$` here",
              by simp [Precision.parse, Count.parse, Res.map, hkw]⟩
          · exact Or.inl ⟨.count (.parameter s), r2,
              by simp [Precision.parse, Count.parse, Res.map, hkw]⟩

/-- The comment peek agrees with its declarative four-token form. -/
theorem comment_peek_eq_spec (toks : List Tok) :
    Comment.peek toks = Comment.peekSpec toks := by
  cases toks with
  | nil => rfl
  | cons t rest =>
    cases t <;> try rfl
    case lt =>
      cases rest with
      | nil => rfl
      | cons u rest2 =>
        cases u <;> try rfl
        case bang =>
          cases rest2 with
          | nil => rfl
          | cons v rest3 =>
            cases v <;> try rfl
            case minus =>
              cases rest3 with
              | nil => rfl
              | cons w rest4 => cases w <;> rfl

/-- The If-opening peek agrees with its declarative form. -/
theorem if_opening_peek_eq_spec (toks : List Tok) :
    IfOpening.peek toks = IfOpening.peekSpec toks := by
  cases toks with
  | nil => rfl
  | cons t rest =>
    cases t <;> try rfl
    case braceGroup inner =>
      cases inner with
      | nil => rfl
      | cons a as =>
        cases a <;> try rfl
        case pound => cases as <;> rfl

/-- The If-closing peek agrees with its declarative form. -/
theorem if_closing_peek_eq_spec (toks : List Tok) :
    IfClosing.peek toks = IfClosing.peekSpec toks := by
  cases toks with
  | nil => rfl
  | cons t rest =>
    cases t <;> try rfl
    case braceGroup inner =>
      cases inner with
      | nil => rfl
      | cons a as =>
        cases a <;> try rfl
        case slash => cases as <;> rfl

/-- The Else-divider peek agrees with its declarative form. -/
theorem else_divider_peek_eq_spec (toks : List Tok) :
    ElseDivider.peek toks = ElseDivider.peekSpec toks := by
  cases toks with
  | nil => rfl
  | cons t rest =>
    cases t <;> try rfl
    case braceGroup inner =>
      cases inner with
      | nil => rfl
      | cons a as =>
        cases a <;> try rfl
        case colon =>
          cases as with
          | nil => rfl
          | cons b bs => cases bs <;> rfl

/-- The ElseIf-divider peek agrees with its declarative form. -/
theorem else_if_divider_peek_eq_spec (toks : List Tok) :
    ElseIfDivider.peek toks = ElseIfDivider.peekSpec toks := by
  cases toks with
  | nil => rfl
  | cons t rest =>
    cases t <;> try rfl
    case braceGroup inner =>
      cases inner with
      | nil => rfl
      | cons a as =>
        cases a <;> try rfl
        case colon =>
          cases as with
          | nil => rfl
          | cons b bs =>
            cases bs with
            | nil =>
              simp [ElseIfDivider.peek, ElseIfDivider.peekSpec, inside_braces,
                headIs, peek2Is, peek3Is]
            | cons c cs => rfl

/-- The Match-opening peek agrees with its declarative form. -/
theorem match_opening_peek_eq_spec (toks : List Tok) :
    MatchOpening.peek toks = MatchOpening.peekSpec toks := by
  cases toks with
  | nil => rfl
  | cons t rest =>
    cases t <;> try rfl
    case braceGroup inner =>
      cases inner with
      | nil => rfl
      | cons a as =>
        cases a <;> try rfl
        case pound => cases as <;> rfl

/-- The Match-closing peek agrees with its declarative form. -/
theorem match_closing_peek_eq_spec (toks : List Tok) :
    MatchClosing.peek toks = MatchClosing.peekSpec toks := by
  cases toks with
  | nil => rfl
  | cons t rest =>
    cases t <;> try rfl
    case braceGroup inner =>
      cases inner with
      | nil => rfl
      | cons a as =>
        cases a <;> try rfl
        case slash => cases as <;> rfl

/-- The case-divider peek agrees with its declarative form. -/
theorem case_divider_peek_eq_spec (toks : List Tok) :
    CaseDivider.peek toks = CaseDivider.peekSpec toks := by
  cases toks with
  | nil => rfl
  | cons t rest =>
    cases t <;> try rfl
    case braceGroup inner =>
      cases inner with
      | nil => rfl
      | cons a as =>
        cases a <;> try rfl
        case colon => cases as <;> rfl

/-! ## Claim theorems -/

/-- Claim C1: the claim states that the `Child` parser's dispatch includes a
Block arm and that `Child` has a Block variant, so `\x7b#if ...\x7d` at a
child position parses to a Block child.  On the code this fails: `Child`
(jsx.rs) has no Block variant and its dispatch never peeks Block, so the
brace group of a control-block opening — even though `Block.peek` accepts
it — is dispatched to the Mustache (interpolation) arm, whose expression
parse then fails on the `#` token, for every fuel. -/
theorem c1_child_dispatch_lacks_block :
    Block.peek blockChildToks = true ∧
    (∀ g, Child.parse (g+1) blockChildToks = .err "expected expression") :=
  ⟨rfl, fun _ => rfl⟩

/-- Claim C2: the claim states that every single-Child parse step consumes
at least one token except at a stopping boundary, so the child loops
terminate or fail on every finite input.  On the code this fails: at the
token sequence `> < / >` (inside a fragment, source `<> > </>`) the
fragment-children stop condition is false, yet `Child::parse` succeeds as an
empty Text consuming nothing, so `parse_fragment_children` runs forever —
its outcome is `diverge` at every fuel. -/
theorem c2_empty_text_never_terminates :
    (headIs isLt stuckToks && peek2Is isSlash stuckToks && peek3Is isGt stuckToks) = false ∧
    (∀ g, Child.parse (g+1) stuckToks = .ok (Child.text []) stuckToks) ∧
    (∀ g, parse_fragment_children g stuckToks = Res.diverge) := by
  refine ⟨rfl, fun _ => rfl, ?_⟩
  intro g
  induction g with
  | zero => rfl
  | succ n ih =>
    cases n with
    | zero => rfl
    | succ m =>
      show (parse_fragment_children (m+1) stuckToks).map
        (fun l => Child.text [] :: l) = Res.diverge
      rw [ih]
      rfl

/-- Claim C3: after its opening tag, `ClosedElement` parsing loops — end of
input is a hard error whose message cites the unmatched opening name; a
position matching `<`, `/`, identifier-path with segmentwise name equality
(pairwise, ignoring other path differences) ends the loop through the
closing-tag parse; any other position parses one `Child` and continues.  The
concrete run `<a::b>x</a>` shows the pairwise matching in action. -/
theorem c3_closed_element_matching :
    (∀ g op, ClosedElement.loop (g+1) op [] =
       .err ("Did not find appropriate closing tag `<" ++ renderPath op.name ++ "/>`")) ∧
    (∀ name toks, closingMatch name toks = true ↔ closingMatchSpec name toks) ∧
    (∀ g op toks, toks ≠ [] → closingMatch op.name toks = false →
       ClosedElement.loop (g+1) op toks =
         andThen (Child.parse g toks) fun c rest =>
           (ClosedElement.loop g op rest).map fun pr => (c :: pr.1, pr.2)) ∧
    (∀ g op toks, closingMatch op.name toks = true →
       ClosedElement.loop (g+1) op toks =
         andThen (ClosingElement.parse toks) fun cl rest => Res.ok ([], cl) rest) ∧
    Element.parse 40 closedElementToks =
      .ok (.closed ⟨["a", "b"], []⟩ [Child.text [Tok.ident "x"]] ⟨["a"]⟩) [] := by
  refine ⟨fun g op => rfl, closingMatch_eq_spec, ?_, ?_, rfl⟩
  · intro g op toks h1 h2
    have hA : toks.isEmpty = false := by
      cases toks with
      | nil => exact absurd rfl h1
      | cons t ts => rfl
    simp only [ClosedElement.loop, hA, h2, Bool.false_eq_true, if_false]
  · intro g op toks h
    have hA : toks.isEmpty = false := by
      cases toks with
      | nil => exact absurd h (by simp [closingMatch, headIs])
      | cons t ts => rfl
    simp only [ClosedElement.loop, hA, h, Bool.false_eq_true, if_false, if_true]

/-- Witness for C3: the loop applied at fuel 1, opening name `a`, and the
non-matching, non-empty position `x` takes the parse-one-Child step. -/
theorem c3_closed_element_matching_witness :
    ClosedElement.loop 1 ⟨["a"], []⟩ [Tok.ident "x"] =
      andThen (Child.parse 0 [Tok.ident "x"]) fun c rest =>
        (ClosedElement.loop 0 ⟨["a"], []⟩ rest).map fun pr => (c :: pr.1, pr.2) :=
  c3_closed_element_matching.2.2.1 0 ⟨["a"], []⟩ [Tok.ident "x"]
    (List.cons_ne_nil _ _) rfl

/-- Claim C4: a format-spec numeric literal `0` followed by digits (no
further leading zero) parses to the zero-pad flag present and width equal to
the remaining digits; a literal with two or more leading zeros is a hard
parse error whatever follows it. -/
theorem c4_leading_zero_split :
    (∀ (rest : List Char) (toks : List Tok),
       rest ≠ [] → rest.head? ≠ some '0' → rest.all Char.isDigit = true →
       headIs isDot toks = false →
       Numbers.parse (Tok.litInt ('0' :: rest) :: toks) =
         .ok ⟨true, some rest, none⟩ toks) ∧
    (∀ (s : List Char) (toks : List Tok),
       ∃ msg, Numbers.parse (Tok.litInt ('0' :: '0' :: s) :: toks) = .err msg) := by
  constructor
  · intro rest toks h1 h2 h3 h4
    obtain ⟨r, rs, rfl⟩ : ∃ r rs, rest = r :: rs := by
      cases rest with
      | nil => exact absurd rfl h1
      | cons r rs => exact ⟨r, rs, rfl⟩
    have hr : r ≠ '0' := by simpa using h2
    have hsplit := intSplit_single_zero r rs hr
    cases toks with
    | nil => simp [Numbers.parse, andThen, hsplit]
    | cons t ts =>
      cases t
      all_goals try (simp [headIs, isDot] at h4)
      all_goals simp [Numbers.parse, andThen, hsplit]
  · intro s toks
    cases toks with
    | nil => exact ⟨_, rfl⟩
    | cons t ts =>
      cases t <;> try (exact ⟨_, rfl⟩)
      case dot =>
        rcases precision_ok_or_err ts with ⟨p, r, hp⟩ | ⟨m, hm⟩
        · exact ⟨"Expected maximum one leading `0` here",
            by simp [Numbers.parse, hp, Res.map, andThen, intSplit]⟩
        · exact ⟨m, by simp [Numbers.parse, hm, Res.map, andThen]⟩

/-- Witness for C4: the literal `05` parses to zero-pad plus width `5`. -/
theorem c4_leading_zero_split_witness :
    Numbers.parse [Tok.litInt ['0', '5']] = .ok ⟨true, some ['5'], none⟩ [] :=
  c4_leading_zero_split.1 ['5'] [] (by decide) (by decide) (by decide) rfl

/-- Claim C5: a float literal `W.F` with nonempty fractional part parses to
width `W` and precision `Count(F)`; with empty fractional part the precision
is parsed from the tokens following the float literal (`6.*` and `6.name$`
work); a float literal carrying a type suffix is a hard parse error. -/
theorem c5_float_width_precision :
    (∀ (W F : List Char) (toks : List Tok),
       W.head? ≠ some '0' → F ≠ [] →
       Numbers.parse (Tok.litFloat W F [] :: toks) =
         .ok ⟨false, some W, some (.count (.integer F))⟩ toks) ∧
    Numbers.parse [Tok.litFloat ['6'] [] [], Tok.star] =
      .ok ⟨false, some ['6'], some .star⟩ [] ∧
    Numbers.parse [Tok.litFloat ['6'] [] [], Tok.ident "name", Tok.dollar] =
      .ok ⟨false, some ['6'], some (.count (.parameter "name"))⟩ [] ∧
    (∀ (W F suf : List Char) (toks : List Tok), suf ≠ [] →
       Numbers.parse (Tok.litFloat W F suf :: toks) =
         .err "Expected [`0`] [INT] [. INT] here") := by
  refine ⟨?_, rfl, rfl, ?_⟩
  · intro W F toks h1 h2
    have hsplit := intSplit_no_zero W h1
    have hF : F.isEmpty = false := by
      cases F with
      | nil => exact absurd rfl h2
      | cons f fs => rfl
    simp [Numbers.parse, andThen, hsplit, hF]
  · intro W F suf toks h
    have hs : suf.isEmpty = false := by
      cases suf with
      | nil => exact absurd rfl h
      | cons f fs => rfl
    simp [Numbers.parse, hs]

/-- Witness for C5: the literal `6.5` parses to width `6`, precision `5`. -/
theorem c5_float_width_precision_witness :
    Numbers.parse [Tok.litFloat ['6'] ['5'] []] =
      .ok ⟨false, some ['6'], some (.count (.integer ['5']))⟩ [] :=
  c5_float_width_precision.1 ['6'] ['5'] [] (by decide) (by decide)

/-- Claim C6: format-type resolution — empty remainder is Display; a lone
`?` is Debug; an identifier immediately followed by `?` resolves to
DebugLowerHex for `x` and DebugUpperHex for `X`, and any other identifier in
that position is a hard error naming only `x`/`X`; a bare identifier is
captured as Other. -/
theorem c6_format_type_resolution :
    FormatType.parse [] = .ok .display [] ∧
    FormatType.parse [Tok.question] = .ok .debug [] ∧
    FormatType.parse [Tok.ident "x", Tok.question] = .ok .debugLowerHex [] ∧
    FormatType.parse [Tok.ident "X", Tok.question] = .ok .debugUpperHex [] ∧
    (∀ (s : String) (rest : List Tok),
       rustKeywords.contains s = false → s ≠ "x" → s ≠ "X" →
       FormatType.parse (Tok.ident s :: Tok.question :: rest) =
         .err "Expected either `x` or `X` here!") ∧
    (∀ (s : String) (rest : List Tok),
       rustKeywords.contains s = false → headIs isQuestion rest = false →
       FormatType.parse (Tok.ident s :: rest) = .ok (.other s) rest) := by
  refine ⟨rfl, rfl, rfl, rfl, ?_, ?_⟩
  · intro s rest h1 h2 h3
    have hm : s ∉ rustKeywords := by simpa using h1
    simp [FormatType.parse, headIs, peek2Is, isQuestion, parseQuestion, expect,
      andThen, hm, h2, h3]
  · intro s rest h1 h2
    have hm : s ∉ rustKeywords := by simpa using h1
    have hq : peek2Is isQuestion (Tok.ident s :: rest) = false := by
      cases rest with
      | nil => rfl
      | cons u us => simpa [peek2Is, headIs] using h2
    simp [FormatType.parse, headIs, isQuestion, hq, hm]

/-- Witness for C6: the identifier `y` before `?` is rejected naming only
`x`/`X`. -/
theorem c6_format_type_resolution_witness :
    FormatType.parse [Tok.ident "y", Tok.question] =
      .err "Expected either `x` or `X` here!" :=
  c6_format_type_resolution.2.2.2.2.1 "y" [] (by decide) (by decide) (by decide)

/-- Claim C7: `\x7b#if c1\x7d t1 \x7b:else if c2\x7d t2 \x7b:else\x7d t3
\x7b/if\x7d` parses to an IfBlock with children `t1` and dividers exactly
`[(ElseIf c2, t2), (Else, t3)]` in left-to-right source order. -/
theorem c7_if_block_divider_order :
    IfBlock.parse 40 ifBlockToks =
      .ok ⟨⟨⟨[Tok.ident "c1"]⟩⟩,
        [Child.text [Tok.ident "t1"]],
        [(IfDivider.ElseIf ⟨[Tok.ident "c2"]⟩, [Child.text [Tok.ident "t2"]]),
         (IfDivider.Else, [Child.text [Tok.ident "t3"]])]⟩ [] := rfl

/-- Claim C8: a Match block parses as opening, then Comment nodes only (a
Text child before the first case is a parse error), then ordered
`(case, children)` pairs, then the closing; and the guard of a case divider
is `None` exactly when nothing follows the pattern inside the braces —
an `if` tail yields `Some`, and any other tail is an error, never a
silent `None`. -/
theorem c8_match_block_shape :
    MatchBlock.parse 40 matchBlockToks =
      .ok ⟨⟨⟨[Tok.ident "subject"]⟩⟩,
        [⟨[Tok.ident "note"]⟩],
        [(⟨⟨[Tok.ident "p1"]⟩, none⟩, [Child.text [Tok.ident "t1"]]),
         (⟨⟨[Tok.ident "p2"]⟩, some ⟨[Tok.ident "g2"]⟩⟩,
          [Child.text [Tok.ident "t2"]])]⟩ [] ∧
    MatchBlock.parse 40 matchStrayToks = .err "expected `<`" ∧
    (∀ g, guard_parse g [] = .ok none []) ∧
    (∀ g rest, guard_parse g (Tok.ident "if" :: rest) = (exprParse g rest).map some) ∧
    (∀ g t ts, isKw "if" t = false → ∃ msg, guard_parse g (t :: ts) = .err msg) := by
  refine ⟨rfl, rfl, fun _ => rfl, fun _ _ => rfl, ?_⟩
  intro g t ts h
  refine ⟨"expected `if`", ?_⟩
  simp [guard_parse, parseKw, expect, h, andThen]

/-- Witness for C8: a non-`if` tail after the pattern is an error, not a
`None` guard. -/
theorem c8_match_block_shape_witness :
    ∃ msg, guard_parse 3 [Tok.ident "g"] = .err msg :=
  c8_match_block_shape.2.2.2.2 3 (Tok.ident "g") [] rfl

/-- Claim C9: parsing a Block whose opening `\x7b#keyword ...\x7d` matches
neither the If peek nor the Match peek is a fatal abort (the source's
`unimplemented!` panic), not a typed error returned to the caller. -/
theorem c9_unknown_block_aborts :
    ∀ (g : Nat) (k : String) (inner rest : List Tok),
      k ≠ "if" → k ≠ "match" →
      Block.parse g (Tok.braceGroup (Tok.pound :: Tok.ident k :: inner) :: rest) =
        .abort "not implemented: Ahhh" := by
  intro g k inner rest h1 h2
  simp [Block.parse, IfBlock.peek, MatchBlock.peek, IfOpening.peek, MatchOpening.peek,
    inside_braces, headIs, peek2Is, isPound, isKw, h1, h2]

/-- Witness for C9: an unknown `\x7b#for ...\x7d` block aborts. -/
theorem c9_unknown_block_aborts_witness :
    Block.parse 5 [Tok.braceGroup [Tok.pound, Tok.ident "for", Tok.ident "x"]] =
      .abort "not implemented: Ahhh" :=
  c9_unknown_block_aborts 5 "for" [Tok.ident "x"] [] (by decide) (by decide)

/-- Claim C10: every speculative peek — the comment peek and the seven
fork-and-look-inside-braces block peeks — equals a total boolean function of
the upcoming token shapes: a failed speculative sub-parse resolves to
`false` rather than propagating its error, and, the peeks being pure
functions of the cursor's remaining tokens that return only a boolean, the
real cursor is left unchanged regardless of outcome. -/
theorem c10_speculative_peeks_pure :
    ∀ toks : List Tok,
      Comment.peek toks = Comment.peekSpec toks ∧
      IfOpening.peek toks = IfOpening.peekSpec toks ∧
      IfClosing.peek toks = IfClosing.peekSpec toks ∧
      ElseDivider.peek toks = ElseDivider.peekSpec toks ∧
      ElseIfDivider.peek toks = ElseIfDivider.peekSpec toks ∧
      MatchOpening.peek toks = MatchOpening.peekSpec toks ∧
      MatchClosing.peek toks = MatchClosing.peekSpec toks ∧
      CaseDivider.peek toks = CaseDivider.peekSpec toks :=
  fun toks =>
    ⟨comment_peek_eq_spec toks, if_opening_peek_eq_spec toks,
     if_closing_peek_eq_spec toks, else_divider_peek_eq_spec toks,
     else_if_divider_peek_eq_spec toks, match_opening_peek_eq_spec toks,
     match_closing_peek_eq_spec toks, case_divider_peek_eq_spec toks⟩

end Pony
